import Mathlib

/-!
Verification of the emberalert prediction-serving path.

This file gives a shallow embedding, in Lean 4, of the serving core of the
emberalert repository:

* `src/api_service/app/services/cache_service.py`
  (`CacheService._generate_key`, `CacheService.get`, `CacheService.set`,
  `CacheService.get_stats`, `CacheService._calculate_hit_rate`);
* `src/api_service/app/services/prediction_service.py`
  (`PredictionService.predict_single`, `PredictionService.predict_batch`,
  `PredictionService._prepare_features`, `PredictionService._get_risk_level`,
  `PredictionService._calculate_factors`);
* `src/transformers/feature_engineering.py`
  (`FeatureEngineer.create_features`, `FeatureEngineer._normalize_risk`,
  `FeatureEngineer.create_risk_label`).

Modelling conventions:

* Python floats are modelled as `ℚ` (the serving path performs only field
  arithmetic, comparisons, clipping and rounding).  The offline transform
  `_normalize_risk` applies `np.exp`, so the offline feature record is
  modelled over `ℝ`.
* Request dictionaries (`validated.dict()` in the routes) are modelled by the
  structure `Obs`; `wind_direction` and `pressure` are `Option ℚ` because
  `_prepare_features` reads them with `request_data.get(k, default)`.
  The seven JSON field names are modelled by the inductive `FieldName`;
  `FieldName.idx` records the alphabetical rank of the corresponding JSON key
  string ("humidity" < "latitude" < "longitude" < "pressure" < "temperature"
  < "wind_direction" < "wind_speed"), which is the order `json.dumps(...,
  sort_keys=True)` produces.
* `_generate_key` computes `"prediction:" + md5(json.dumps(data,
  sort_keys=True)).hexdigest()`.  `json.dumps` on a key-sorted dict of floats
  is injective in the sorted key/value list, and the MD5 digest and the
  constant prefix are deterministic; the digest is modelled as injective
  (collision-free on this domain), so the cache key is modelled by the sorted
  key/value list itself.
* `datetime` values are modelled by `DT`, recording exactly the components
  the code reads: `month`, `hour` and `timetuple().tm_yday`.
* Redis is modelled by `Backend`: an association-list store, the lifetime
  keyspace hit/miss counters returned by `info('stats')`, and a `failing`
  flag meaning every backing-store operation raises (connection errors
  etc.).  A `CacheService` whose constructor-time `ping` failed has
  `redis_client = None`, modelled by the `Option Backend` being `none`.
  TTL expiry is not modelled (entries are read back "within the TTL"); the
  `ttl or config.CACHE_TTL` computation is still embedded (`effectiveTtl`).
* Exceptions are modelled by `Option`/`Except` results: `predict_single`
  returns `none` where the Python raises (`model.predict(...)[0]` on an
  empty prediction array), and `predict_batch` returns `Except.error` where
  the Python `pd.DataFrame([...one-row DataFrames...])` constructor raises.
-/

/-- The seven request fields accepted by `PredictionRequest`
(`app/models/schemas.py`), i.e. the keys of `validated.dict()`.
Constructors are listed in the alphabetical order of the JSON key strings. -/
inductive FieldName
  | humidity
  | latitude
  | longitude
  | pressure
  | temperature
  | wind_direction
  | wind_speed
deriving DecidableEq, Repr

/-- Alphabetical rank of the JSON key string named by a `FieldName`;
this is the comparison `json.dumps(..., sort_keys=True)` sorts by. -/
def FieldName.idx : FieldName → ℕ
  | .humidity => 0
  | .latitude => 1
  | .longitude => 2
  | .pressure => 3
  | .temperature => 4
  | .wind_direction => 5
  | .wind_speed => 6

/-- One key/value pair of a request dictionary. -/
abbrev KV := FieldName × ℚ

/-- Key order used by the canonical (sorted) serialization. -/
def keyLe (a b : KV) : Prop := a.1.idx ≤ b.1.idx

/-- Strict key order (used to show sorted serializations are unique). -/
def keyLt (a b : KV) : Prop := a.1.idx < b.1.idx

instance : DecidableRel keyLe := fun a b => inferInstanceAs (Decidable (a.1.idx ≤ b.1.idx))

instance : IsTotal KV keyLe := ⟨fun a b => Nat.le_total a.1.idx b.1.idx⟩

instance : IsTrans KV keyLe := ⟨fun _ _ _ h h' => Nat.le_trans h h'⟩

instance : IsAntisymm KV keyLt :=
  ⟨fun _ _ h h' => absurd (Nat.lt_trans h h') (Nat.lt_irrefl _)⟩

/-- Embedding of `CacheService._generate_key`: `sorted_data = json.dumps(data,
sort_keys=True)`, then `"prediction:" + md5(sorted_data).hexdigest()`.
The key is modelled by the key-sorted key/value list (see the header:
serialization and digest are deterministic and modelled as injective). -/
def generate_key (data : List KV) : List KV :=
  List.insertionSort keyLe data

/-- A validated request (`PredictionRequest.dict()`), as consumed by
`PredictionService`.  `wind_direction` and `pressure` are optional because
the service reads them with `.get(key, default)`. -/
structure Obs where
  latitude : ℚ
  longitude : ℚ
  temperature : ℚ
  humidity : ℚ
  wind_speed : ℚ
  wind_direction : Option ℚ
  pressure : Option ℚ
deriving DecidableEq, Repr

/-- The request dictionary as a key/value list, in the field declaration
order of `PredictionRequest` (the construction order of
`validated.dict()`); optional keys are present only when supplied. -/
def Obs.toFields (o : Obs) : List KV :=
  [(.latitude, o.latitude), (.longitude, o.longitude),
   (.temperature, o.temperature), (.humidity, o.humidity),
   (.wind_speed, o.wind_speed)]
  ++ (match o.wind_direction with
      | some w => [(.wind_direction, w)]
      | none => [])
  ++ (match o.pressure with
      | some p => [(.pressure, p)]
      | none => [])

/-- The components of a Python `datetime` that the code reads:
`month`, `hour` and `timetuple().tm_yday`. -/
structure DT where
  month : ℕ
  hour : ℕ
  yday : ℕ
deriving DecidableEq, Repr

/-- One row of the model-input frame built by
`PredictionService._prepare_features` (the `features` dict). -/
structure FeatureRow where
  temperature : ℚ
  humidity : ℚ
  wind_speed : ℚ
  wind_direction : ℚ
  pressure : ℚ
  month : ℕ
  hour : ℕ
  day_of_year : ℕ
deriving DecidableEq, Repr

/-- The `features` dictionary built inside
`PredictionService._prepare_features`: measurement fields from the request
(with `.get` defaults 0 and 1013), temporal fields from `datetime.now()`. -/
def featureRow (request_data : Obs) (now : DT) : FeatureRow :=
  { temperature := request_data.temperature
    humidity := request_data.humidity
    wind_speed := request_data.wind_speed
    wind_direction := request_data.wind_direction.getD 0
    pressure := request_data.pressure.getD 1013
    month := now.month
    hour := now.hour
    day_of_year := now.yday }

/-- Embedding of `PredictionService._prepare_features`: returns
`pd.DataFrame([features])`, a one-row frame.  A frame is modelled as its
list of rows. -/
def prepare_features (request_data : Obs) (now : DT) : List FeatureRow :=
  [featureRow request_data now]

/-- Embedding of `np.clip(risk_score, 0, 1)`. -/
def clip01 (x : ℚ) : ℚ := min (max x 0) 1

/-- Python `round(x, 3)`.  Mathlib's `round` rounds half away from
Python's bankers' tie-breaking, but no claim depends on exact ties. -/
def round3 (x : ℚ) : ℚ := (round (x * 1000) : ℚ) / 1000

/-- Embedding of `PredictionService._get_risk_level`. -/
def get_risk_level (risk_score : ℚ) : String :=
  if risk_score < 3/10 then "LOW"
  else if risk_score < 6/10 then "MODERATE"
  else if risk_score < 8/10 then "HIGH"
  else "EXTREME"

/-- Embedding of `FeatureEngineer.create_risk_label` (same thresholds as
`_get_risk_level`, in the offline transformer). -/
def create_risk_label (risk_score : ℚ) : String :=
  if risk_score < 3/10 then "LOW"
  else if risk_score < 6/10 then "MODERATE"
  else if risk_score < 8/10 then "HIGH"
  else "EXTREME"

/-- The `contributing_factors` mapping. -/
structure Factors where
  temperature_factor : ℚ
  humidity_factor : ℚ
  wind_factor : ℚ
deriving DecidableEq, Repr

/-- Embedding of `PredictionService._calculate_factors`. -/
def calculate_factors (request_data : Obs) : Factors :=
  { temperature_factor := round3 (max 0 ((request_data.temperature - 70) / 40))
    humidity_factor := round3 (max 0 ((50 - request_data.humidity) / 50))
    wind_factor := round3 (min 1 (request_data.wind_speed / 20)) }

/-- The `prediction` dictionary assembled by the service. -/
structure Prediction where
  latitude : ℚ
  longitude : ℚ
  risk_score : ℚ
  risk_level : String
  timestamp : DT
  model_version : String
  contributing_factors : Factors
  from_cache : Bool
deriving DecidableEq, Repr

/-- JSON values appearing in a serialized prediction. -/
inductive PValue where
  | num (q : ℚ)
  | str (s : String)
  | dt (d : DT)
  | bool (b : Bool)
  | obj (fields : List (String × PValue))

/-- The JSON object `json.dumps(prediction)` serializes when a prediction is
written to the cache, with keys in the construction order of the
`prediction` dict literal in `predict_single`/`predict_batch`.  Note that
the `from_cache` key is part of the stored payload. -/
def Prediction.toDict (p : Prediction) : List (String × PValue) :=
  [("latitude", .num p.latitude),
   ("longitude", .num p.longitude),
   ("risk_score", .num p.risk_score),
   ("risk_level", .str p.risk_level),
   ("timestamp", .dt p.timestamp),
   ("model_version", .str p.model_version),
   ("contributing_factors", .obj
      [("temperature_factor", .num p.contributing_factors.temperature_factor),
       ("humidity_factor", .num p.contributing_factors.humidity_factor),
       ("wind_factor", .num p.contributing_factors.wind_factor)]),
   ("from_cache", .bool p.from_cache)]

/-- The `keyspace_hits`/`keyspace_misses` counters of
`redis_client.info('stats')`. -/
structure RedisInfo where
  keyspace_hits : ℕ
  keyspace_misses : ℕ
deriving DecidableEq, Repr

/-- The Redis backing store: key/value entries, the server-side stats
counters, and a `failing` flag meaning every operation on the connection
raises. -/
structure Backend where
  store : List (List KV × Prediction)
  info : RedisInfo
  failing : Bool
deriving DecidableEq, Repr

/-- Redis `GET key` (on the healthy store). -/
def lookupKV (k : List KV) : List (List KV × Prediction) → Option Prediction
  | [] => none
  | (k', v) :: rest => if k' = k then some v else lookupKV k rest

/-- Redis `SETEX` on the healthy store: overwrite the entry for `k`. -/
def kvInsert (k : List KV) (v : Prediction)
    (store : List (List KV × Prediction)) : List (List KV × Prediction) :=
  (k, v) :: store.filter (fun e => !(decide (e.1 = k)))

/-- Embedding of `ttl = ttl or config.CACHE_TTL` in `CacheService.set` (Python `or`
treats `0` as falsy, so an explicit `ttl=0` also becomes `CACHE_TTL`).
`config.CACHE_TTL` defaults to 3600. -/
def effectiveTtl (ttl : Option ℕ) : ℕ :=
  match ttl with
  | none => 3600
  | some t => if t = 0 then 3600 else t

/-- Embedding of `CacheService.get`: `None` when the client is absent
(`redis_client` is `None`), when the backing store raises (the
`except` branch returns `None`), or on a plain miss; otherwise the parsed
stored payload. -/
def CacheService.get (client : Option Backend) (request_data : List KV) :
    Option Prediction :=
  match client with
  | none => none
  | some b =>
    if b.failing then none
    else lookupKV (generate_key request_data) b.store

/-- Embedding of `CacheService.set`: a no-op when the client is absent or the backing
store raises (the exception is swallowed); otherwise `SETEX` under the
generated key.  The written value is `json.dumps(prediction)`, i.e.
`Prediction.toDict prediction`; since that serialization is injective the
store holds the `Prediction` itself. -/
def CacheService.set (client : Option Backend) (request_data : List KV)
    (prediction : Prediction) (ttl : Option ℕ) : Option Backend :=
  match client with
  | none => none
  | some b =>
    let _expiry := effectiveTtl ttl
    if b.failing then some b
    else some { b with store := kvInsert (generate_key request_data) prediction b.store }

/-- Embedding of `CacheService._calculate_hit_rate`. -/
def calculate_hit_rate (hits misses : ℕ) : ℚ :=
  if hits + misses = 0 then 0
  else ((hits : ℚ) / ((hits : ℚ) + (misses : ℚ))) * 100

/-- Result shape of `CacheService.get_stats`: either
`{'connected': False}` or the full stats dict. -/
inductive CacheStats where
  | disconnected
  | connected (total_keys hits misses : ℕ) (hit_rate : ℚ)
deriving DecidableEq, Repr

/-- Embedding of `CacheService.get_stats`: the record with connected false when the client is
absent or the backend raises; otherwise the stats dict built from
`dbsize()` and `info('stats')`. -/
def CacheService.get_stats (client : Option Backend) : CacheStats :=
  match client with
  | none => .disconnected
  | some b =>
    if b.failing then .disconnected
    else .connected b.store.length b.info.keyspace_hits b.info.keyspace_misses
      (calculate_hit_rate b.info.keyspace_hits b.info.keyspace_misses)

/-- The `prediction` dict literal shared by `predict_single` and the
`predict_batch` fill loop (the two literals in the source are identical):
`clipped` is the already-clipped score; `risk_score` is rounded to 3
decimals, `risk_level` is computed from the unrounded clipped score. -/
def assemble (version : String) (now : DT) (request_data : Obs)
    (clipped : ℚ) : Prediction :=
  { latitude := request_data.latitude
    longitude := request_data.longitude
    risk_score := round3 clipped
    risk_level := get_risk_level clipped
    timestamp := now
    model_version := version
    contributing_factors := calculate_factors request_data
    from_cache := false }

/-- Embedding of `PredictionService.predict_single`.  `model` is the loaded scoring
model: a function from a frame (list of feature rows) to the prediction
array.  `self.model.predict(features)[0]` raises `IndexError` on an empty
array, modelled by the `none` result; otherwise the flow is: cache lookup
(hit: set `from_cache = True` on the payload and return), else prepare
features, predict, clip, categorize, compute factors, assemble, cache. -/
def predict_single (model : List FeatureRow → List ℚ) (version : String)
    (now : DT) (client : Option Backend) (request_data : Obs) :
    Option (Prediction × Option Backend) :=
  match CacheService.get client request_data.toFields with
  | some cached => some ({ cached with from_cache := true }, client)
  | none =>
    let features := prepare_features request_data now
    match model features with
    | [] => none
    | s :: _ =>
      let risk_score := clip01 s
      let prediction := assemble version now request_data risk_score
      some (prediction, CacheService.set client request_data.toFields prediction none)

/-- Output of the first loop of `predict_batch`: the `predictions` list
(with `None` placeholders at misses), `uncached_requests` and
`uncached_indices`. -/
structure PartOut where
  preds : List (Option Prediction)
  uncached : List Obs
  idxs : List ℕ
deriving Repr

/-- The first loop of `predict_batch` (`for i, req in enumerate(requests)`):
cache hits are resolved in place with `from_cache = True`, misses append a
`None` placeholder and record the request and its original index.  `i` is
the enumeration counter. -/
def partitionPhase (client : Option Backend) : List Obs → ℕ → PartOut
  | [], _ => ⟨[], [], []⟩
  | r :: rs, i =>
    let rest := partitionPhase client rs (i + 1)
    match CacheService.get client r.toFields with
    | some cached =>
        ⟨some { cached with from_cache := true } :: rest.preds, rest.uncached, rest.idxs⟩
    | none =>
        ⟨none :: rest.preds, r :: rest.uncached, i :: rest.idxs⟩

/-- The second loop of `predict_batch`
(`for i, (req, score) in enumerate(zip(uncached_requests, risk_scores))`):
clip the score, assemble the prediction, cache it, and place it at
`uncached_indices[i]`.  Python's `zip` truncates to the shorter sequence;
the branch where the index list runs out first is unreachable because
`uncached_indices` always has the same length as `uncached_requests`. -/
def fillLoop (version : String) (now : DT) :
    List (Obs × ℚ) → List ℕ → List (Option Prediction) → Option Backend →
    List (Option Prediction) × Option Backend
  | [], _, preds, client => (preds, client)
  | (req, score) :: rest, idx :: idxs, preds, client =>
    let prediction := assemble version now req (clip01 score)
    fillLoop version now rest idxs (preds.set idx (some prediction))
      (CacheService.set client req.toFields prediction none)
  | _ :: _, [], preds, client => (preds, client)

/-- Embedding of `pd.DataFrame(frames)` where `frames` is the list
`[self._prepare_features(req) for req in uncached_requests]` and each
element is itself a one-row `pd.DataFrame`.  For a nonempty list, pandas
does not treat 2-d elements as nested rows (`treat_as_nested` requires
`ndim == 1`); `np.asarray` of the list of `(1, 8)` frames has shape
`(n, 1, 8)` and the constructor raises
`ValueError: Must pass 2-d input`. -/
def pdDataFrameOfFrames (frames : List (List FeatureRow)) :
    Except String (List FeatureRow) :=
  match frames with
  | [] => .ok []
  | _ :: _ => .error "Must pass 2-d input"

/-- Embedding of `PredictionService.predict_batch`, as written.  The third component of
the result is the log of model invocations (the frame passed to each
`self.model.predict` call).  `Except.error` models the `ValueError` raised
by the nested `pd.DataFrame` construction (see `pdDataFrameOfFrames`). -/
def predict_batch (model : List FeatureRow → List ℚ) (version : String)
    (now : DT) (client : Option Backend) (requests : List Obs) :
    Except String (List (Option Prediction) × Option Backend × List (List FeatureRow)) :=
  let part := partitionPhase client requests 0
  if part.uncached.isEmpty then .ok (part.preds, client, [])
  else
    match pdDataFrameOfFrames (part.uncached.map (fun req => prepare_features req now)) with
    | .error e => .error e
    | .ok features_batch =>
      let risk_scores := model features_batch
      let out := fillLoop version now (part.uncached.zip risk_scores) part.idxs
        part.preds client
      .ok (out.1, out.2, [features_batch])

/-- Variant of `predict_batch` with the feature-frame slip repaired: the miss-set
frame is built from the per-request feature rows (the `features` dicts)
instead of nesting one-row DataFrames.  Identical to `predict_batch` in
every other respect; this is the flow the surrounding code and the spec
describe. -/
def predict_batch_intended (model : List FeatureRow → List ℚ) (version : String)
    (now : DT) (client : Option Backend) (requests : List Obs) :
    List (Option Prediction) × Option Backend × List (List FeatureRow) :=
  let part := partitionPhase client requests 0
  if part.uncached.isEmpty then (part.preds, client, [])
  else
    let features_batch := part.uncached.map (fun req => featureRow req now)
    let risk_scores := model features_batch
    let out := fillLoop version now (part.uncached.zip risk_scores) part.idxs
      part.preds client
    (out.1, out.2, [features_batch])

/-- Spec-level description of the batch output ("output[i] corresponds to
input[i]": hits resolved in place with `from_cache = True`, misses consume
the miss-set scores in order; a missing score leaves the placeholder). -/
def batchResultSpec (client : Option Backend) (version : String) (now : DT) :
    List Obs → List ℚ → List (Option Prediction)
  | [], _ => []
  | r :: rs, scores =>
    match CacheService.get client r.toFields with
    | some cached =>
        some { cached with from_cache := true } :: batchResultSpec client version now rs scores
    | none =>
      match scores with
      | s :: rest => some (assemble version now r (clip01 s)) :: batchResultSpec client version now rs rest
      | [] => none :: batchResultSpec client version now rs []

/-- A raw weather observation consumed by `FeatureEngineer.create_features`
in the offline ETL path; unlike a serving request it carries its own
recorded `timestamp`, and `conditions` is read with
`.get('conditions', 'Clear')`. -/
structure WeatherData where
  temperature : ℝ
  humidity : ℝ
  wind_speed : ℝ
  timestamp : DT
  conditions : Option String

/-- The feature dictionary produced by `FeatureEngineer.create_features`. -/
structure EngineeredFeatures where
  temperature : ℝ
  temp_risk : ℝ
  humidity : ℝ
  humidity_risk : ℝ
  wind_speed : ℝ
  wind_risk : ℝ
  composite_risk : ℝ
  month : ℕ
  hour : ℕ
  day_of_year : ℕ
  is_fire_season : ℕ
  temp_humidity_interaction : ℝ
  wind_temp_interaction : ℝ
  condition_risk : ℝ

/-- Embedding of `FeatureEngineer.TEMP_HIGH` (NWCG fire-danger threshold, °F). -/
def TEMP_HIGH : ℝ := 85

/-- Embedding of `FeatureEngineer.HUMIDITY_LOW` (percent). -/
def HUMIDITY_LOW : ℝ := 30

/-- Embedding of `FeatureEngineer.WIND_HIGH` (mph). -/
def WIND_HIGH : ℝ := 15

/-- Embedding of `FeatureEngineer._normalize_risk`: sigmoid of the normalized distance
from the threshold, clipped to `[0, 1]`. -/
noncomputable def normalize_risk (value threshold : ℝ)
    (higher_is_riskier : Bool) : ℝ :=
  let normalized :=
    if higher_is_riskier then (value - threshold) / threshold
    else (threshold - value) / threshold
  min (max (1 / (1 + Real.exp (-5 * normalized))) 0) 1

/-- The `condition_map` dictionary in `create_features`. -/
def condition_map (c : String) : Option ℝ :=
  if c = "Clear" then some 0.8
  else if c = "Clouds" then some 0.5
  else if c = "Rain" then some 0.1
  else if c = "Drizzle" then some 0.2
  else if c = "Thunderstorm" then some 0.3
  else if c = "Snow" then some 0
  else none

/-- Embedding of `FeatureEngineer.create_features`: the offline/ETL feature transform.
Its temporal features come from `weather_data['timestamp']`, the
observation's own recorded time. -/
noncomputable def create_features (weather_data : WeatherData) : EngineeredFeatures :=
  let temp_risk := normalize_risk weather_data.temperature TEMP_HIGH true
  let humidity_risk := normalize_risk weather_data.humidity HUMIDITY_LOW false
  let wind_risk := normalize_risk weather_data.wind_speed WIND_HIGH true
  { temperature := weather_data.temperature
    temp_risk := temp_risk
    humidity := weather_data.humidity
    humidity_risk := humidity_risk
    wind_speed := weather_data.wind_speed
    wind_risk := wind_risk
    composite_risk := 0.4 * temp_risk + 0.3 * humidity_risk + 0.3 * wind_risk
    month := weather_data.timestamp.month
    hour := weather_data.timestamp.hour
    day_of_year := weather_data.timestamp.yday
    is_fire_season :=
      if 6 ≤ weather_data.timestamp.month ∧ weather_data.timestamp.month ≤ 10 then 1 else 0
    temp_humidity_interaction := temp_risk * humidity_risk
    wind_temp_interaction := wind_risk * temp_risk
    condition_risk := (condition_map (weather_data.conditions.getD "Clear")).getD 0.5 }

/-! Concrete fixtures used by witness and counterexample theorems. -/

/-- A sample evaluation instant. -/
def dt0 : DT := ⟨8, 14, 227⟩

/-- A sample validated request (the documented example request). -/
def obs0 : Obs := ⟨34, -118, 95, 25, 20, some 180, some 1013⟩

/-- Same conditions as `obs0`, different location. -/
def obs1 : Obs := ⟨37, -122, 95, 25, 20, some 180, some 1013⟩

/-- Same as `obs0` except the temperature field. -/
def obs2 : Obs := ⟨34, -118, 96, 25, 20, some 180, some 1013⟩

/-- A healthy, empty Redis backend. -/
def backend0 : Backend := ⟨[], ⟨0, 0⟩, false⟩

/-- A backend whose every operation raises (connection down). -/
def backendDown : Backend := ⟨[], ⟨3, 4⟩, true⟩

/-- A sample cached prediction payload (as written, `from_cache = False`). -/
def pred0 : Prediction :=
  ⟨34, -118, 1/2, "MODERATE", ⟨8, 14, 227⟩, "v1.0", ⟨625/1000, 1/2, 1⟩, false⟩

/-- A stub scoring model returning the constant `c` for every row of the
input frame (it is length-preserving, as the spec assumes of the model). -/
def modelConst (c : ℚ) : List FeatureRow → List ℚ :=
  fun rows => rows.map (fun _ => c)

/-- A raw model-output float as `np.clip` receives it: either a real
(rational) value or IEEE NaN.  `clip01` above covers only the real-valued
case; this type makes the NaN behavior of the source statable. -/
inductive RawScore where
  | val (q : ℚ)
  | nan
deriving DecidableEq, Repr

/-- Embedding of `np.maximum` on scalars: NaN propagates (IEEE: if either
operand is NaN, the result is NaN). -/
def npMaximum (x y : RawScore) : RawScore :=
  match x, y with
  | .nan, _ => .nan
  | _, .nan => .nan
  | .val a, .val b => .val (max a b)

/-- Embedding of `np.minimum` on scalars: NaN propagates. -/
def npMinimum (x y : RawScore) : RawScore :=
  match x, y with
  | .nan, _ => .nan
  | _, .nan => .nan
  | .val a, .val b => .val (min a b)

/-- Embedding of `np.clip(x, 0, 1)` on the full float domain:
`np.minimum(np.maximum(x, 0), 1)`, which propagates NaN unclamped. -/
def npClip01 (x : RawScore) : RawScore :=
  npMinimum (npMaximum x (.val 0)) (.val 1)

/-- Whether a raw score lies in `[0, 1]`.  IEEE comparisons against NaN
are false, so NaN lies in no interval. -/
def RawScore.inUnitInterval : RawScore → Prop
  | .val q => 0 ≤ q ∧ q ≤ 1
  | .nan => False

/-! Basic lemmas about clipping, rounding and `predict_single`. -/

lemma clip01_nonneg (x : ℚ) : 0 ≤ clip01 x :=
  le_min (le_max_right x 0) zero_le_one

lemma clip01_le_one (x : ℚ) : clip01 x ≤ 1 :=
  min_le_right _ _

lemma round3_nonneg {x : ℚ} (h : 0 ≤ x) : 0 ≤ round3 x := by
  unfold round3
  have hz : (0 : ℤ) ≤ round (x * 1000) := by
    rw [round_eq]
    exact Int.floor_nonneg.mpr (by linarith)
  have hz' : (0 : ℚ) ≤ (round (x * 1000) : ℚ) := by exact_mod_cast hz
  exact div_nonneg hz' (by norm_num)

lemma round3_le_one {x : ℚ} (h : x ≤ 1) : round3 x ≤ 1 := by
  unfold round3
  rw [div_le_one (by norm_num : (0 : ℚ) < 1000)]
  have h1 : round (x * 1000) ≤ round ((1000 : ℤ) : ℚ) := by
    rw [round_eq, round_eq]
    exact Int.floor_mono (by push_cast; linarith)
  rw [round_intCast] at h1
  exact_mod_cast h1

lemma predict_single_hit {model : List FeatureRow → List ℚ} {version : String}
    {now : DT} {client : Option Backend} {request_data : Obs} {cached : Prediction}
    (hhit : CacheService.get client request_data.toFields = some cached) :
    predict_single model version now client request_data =
      some ({ cached with from_cache := true }, client) := by
  unfold predict_single
  rw [hhit]

lemma predict_single_miss {model : List FeatureRow → List ℚ} {version : String}
    {now : DT} {client : Option Backend} {request_data : Obs} {s : ℚ} {rest : List ℚ}
    (hmiss : CacheService.get client request_data.toFields = none)
    (hm : model (prepare_features request_data now) = s :: rest) :
    predict_single model version now client request_data =
      some (assemble version now request_data (clip01 s),
        CacheService.set client request_data.toFields
          (assemble version now request_data (clip01 s)) none) := by
  simp only [predict_single, hmiss, hm]

lemma predict_single_miss_empty {model : List FeatureRow → List ℚ} {version : String}
    {now : DT} {client : Option Backend} {request_data : Obs}
    (hmiss : CacheService.get client request_data.toFields = none)
    (hm : model (prepare_features request_data now) = []) :
    predict_single model version now client request_data = none := by
  simp only [predict_single, hmiss, hm]

/-- C6: for every score in `[0, 1]`, `_get_risk_level` categorizes with
half-open thresholds `[0, 0.3) → LOW`, `[0.3, 0.6) → MODERATE`,
`[0.6, 0.8) → HIGH`, `[0.8, 1] → EXTREME`; in particular the boundary
scores `0.3`, `0.6`, `0.8` and `1.0` map to MODERATE, HIGH, EXTREME and
EXTREME, and the offline `create_risk_label` agrees everywhere. -/
theorem risk_categorization_boundaries :
    (∀ s : ℚ, 0 ≤ s → s ≤ 1 →
      ((s < 3/10 → get_risk_level s = "LOW") ∧
       (3/10 ≤ s ∧ s < 6/10 → get_risk_level s = "MODERATE") ∧
       (6/10 ≤ s ∧ s < 8/10 → get_risk_level s = "HIGH") ∧
       (8/10 ≤ s → get_risk_level s = "EXTREME"))) ∧
    get_risk_level (3/10) = "MODERATE" ∧
    get_risk_level (6/10) = "HIGH" ∧
    get_risk_level (8/10) = "EXTREME" ∧
    get_risk_level 1 = "EXTREME" ∧
    (∀ s : ℚ, create_risk_label s = get_risk_level s) := by
  refine ⟨fun s _ _ => ⟨?_, ?_, ?_, ?_⟩, by norm_num [get_risk_level],
    by norm_num [get_risk_level], by norm_num [get_risk_level],
    by norm_num [get_risk_level], fun s => rfl⟩
  · intro h
    rw [get_risk_level, if_pos h]
  · rintro ⟨h3, h6⟩
    rw [get_risk_level, if_neg (not_lt.mpr h3), if_pos h6]
  · rintro ⟨h6, h8⟩
    rw [get_risk_level, if_neg (by linarith), if_neg (not_lt.mpr h6), if_pos h8]
  · intro h8
    rw [get_risk_level, if_neg (by linarith), if_neg (by linarith),
      if_neg (not_lt.mpr h8)]

/-- Witness for C6 at concrete scores. -/
theorem risk_categorization_boundaries_witness :
    get_risk_level (45/100) = "MODERATE" ∧ get_risk_level (95/100) = "EXTREME" := by
  constructor
  · exact (risk_categorization_boundaries.1 (45/100) (by norm_num) (by norm_num)).2.1
      ⟨by norm_num, by norm_num⟩
  · exact (risk_categorization_boundaries.1 (95/100) (by norm_num) (by norm_num)).2.2.2
      (by norm_num)

lemma npClip01_val (q : ℚ) : npClip01 (RawScore.val q) = RawScore.val (clip01 q) := rfl

/-- C5 (amended): for every real-valued raw score, `np.clip` yields a
score in `[0, 1]` — so every cache-miss prediction's `risk_score` lies in
`[0, 1]` — and at the spec's concrete raw scores `1.5` is clamped to
`1.0` (EXTREME) and `-0.3` to `0.0` (LOW).  The original claim's NaN
conjunct is false on the code: `np.clip` propagates NaN unclamped (the
counterexample below), so NaN is excised here; on real-valued scores
`npClip01` and `clip01` agree (`npClip01_val`). -/
theorem score_clamping :
    (∀ x : ℚ, 0 ≤ clip01 x ∧ clip01 x ≤ 1) ∧
    clip01 (3/2) = 1 ∧ get_risk_level (clip01 (3/2)) = "EXTREME" ∧
    clip01 (-(3/10)) = 0 ∧ get_risk_level (clip01 (-(3/10))) = "LOW" ∧
    (∀ (model : List FeatureRow → List ℚ) (version : String) (now : DT)
       (client : Option Backend) (request_data : Obs) (s : ℚ) (rest : List ℚ)
       (p : Prediction) (client' : Option Backend),
       CacheService.get client request_data.toFields = none →
       model (prepare_features request_data now) = s :: rest →
       predict_single model version now client request_data = some (p, client') →
       (0 ≤ p.risk_score ∧ p.risk_score ≤ 1) ∧
       (s = 3/2 → p.risk_score = 1 ∧ p.risk_level = "EXTREME") ∧
       (s = -(3/10) → p.risk_score = 0 ∧ p.risk_level = "LOW")) := by
  have hclip32 : clip01 (3/2) = 1 := by norm_num [clip01]
  have hclip03 : clip01 (-(3/10)) = 0 := by norm_num [clip01]
  refine ⟨fun x => ⟨clip01_nonneg x, clip01_le_one x⟩, hclip32,
    by rw [hclip32]; norm_num [get_risk_level], hclip03,
    by rw [hclip03]; norm_num [get_risk_level],
    fun model version now client request_data s rest p client' hmiss hm hpred => ?_⟩
  have heq := (predict_single_miss hmiss hm).symm.trans hpred
  rw [Option.some.injEq, Prod.mk.injEq] at heq
  obtain ⟨hp, -⟩ := heq
  subst hp
  refine ⟨⟨round3_nonneg (clip01_nonneg s), round3_le_one (clip01_le_one s)⟩,
    fun hs => ?_, fun hs => ?_⟩
  · subst hs
    constructor
    · show round3 (clip01 (3/2)) = 1
      rw [hclip32]
      norm_num [round3, round_eq]
    · show get_risk_level (clip01 (3/2)) = "EXTREME"
      rw [hclip32]
      norm_num [get_risk_level]
  · subst hs
    constructor
    · show round3 (clip01 (-(3/10))) = 0
      rw [hclip03]
      norm_num [round3, round_eq]
    · show get_risk_level (clip01 (-(3/10))) = "LOW"
      rw [hclip03]
      norm_num [get_risk_level]

/-- Witness for C5: a stub model scoring every row `1.5`, applied to the
sample request with no cache, yields a prediction with `risk_score = 1`
and `risk_level = "EXTREME"`. -/
theorem score_clamping_witness :
    (assemble "v1.0" dt0 obs0 (clip01 (3/2))).risk_score = 1 ∧
    (assemble "v1.0" dt0 obs0 (clip01 (3/2))).risk_level = "EXTREME" :=
  (score_clamping.2.2.2.2.2 (modelConst (3/2)) "v1.0" dt0 none obs0 (3/2) []
    (assemble "v1.0" dt0 obs0 (clip01 (3/2))) none rfl rfl
    (predict_single_miss rfl rfl)).2.1 rfl

/-- C5 counterexample: the claim as frozen says the core defends against
NaN raw scores by clamping, so every returned `risk_score` lies in
`[0, 1]`.  On the code, `np.clip(nan, 0, 1)` is
`np.minimum(np.maximum(nan, 0), 1)`, which propagates NaN: at the
concrete raw score NaN the clipped score is still NaN and lies in no
interval, so the returned `risk_score` would be `nan`, not in `[0, 1]`. -/
theorem score_clamping_nan_counterexample :
    npClip01 RawScore.nan = RawScore.nan ∧
    ¬ (npClip01 RawScore.nan).inUnitInterval :=
  ⟨rfl, fun h => h⟩

/-- C9: on a cache miss, `risk_level` is computed from the full-precision
clipped score and only the emitted fields are rounded to 3 decimals:
`risk_score = round(clip(s), 3)`, `risk_level = categorize(clip(s))`, and
the contributing factors are computed from the full-precision request
fields with rounding applied only at emission.  The final conjunct shows
the order matters: rounding before categorizing would change the level. -/
theorem rounding_at_result_boundary :
    (∀ (model : List FeatureRow → List ℚ) (version : String) (now : DT)
       (client : Option Backend) (request_data : Obs) (s : ℚ) (rest : List ℚ)
       (p : Prediction) (client' : Option Backend),
       CacheService.get client request_data.toFields = none →
       model (prepare_features request_data now) = s :: rest →
       predict_single model version now client request_data = some (p, client') →
       (p.risk_score = round3 (clip01 s) ∧
        p.risk_level = get_risk_level (clip01 s) ∧
        p.contributing_factors = calculate_factors request_data ∧
        calculate_factors request_data =
          ⟨round3 (max 0 ((request_data.temperature - 70) / 40)),
           round3 (max 0 ((50 - request_data.humidity) / 50)),
           round3 (min 1 (request_data.wind_speed / 20))⟩)) ∧
    get_risk_level (round3 (2996/10000)) ≠ get_risk_level (2996/10000) := by
  constructor
  · intro model version now client request_data s rest p client' hmiss hm hpred
    have heq := (predict_single_miss hmiss hm).symm.trans hpred
    rw [Option.some.injEq, Prod.mk.injEq] at heq
    obtain ⟨hp, -⟩ := heq
    subst hp
    exact ⟨rfl, rfl, rfl, rfl⟩
  · have h1 : round3 (2996/10000) = 3/10 := by norm_num [round3, round_eq]
    rw [h1]
    have h2 : get_risk_level (3/10) = "MODERATE" := by norm_num [get_risk_level]
    have h3 : get_risk_level (2996/10000) = "LOW" := by norm_num [get_risk_level]
    rw [h2, h3]
    simp

/-- Witness for C9 at a stub model scoring every row `0.42`. -/
theorem rounding_at_result_boundary_witness :
    (assemble "v1.0" dt0 obs0 (clip01 (42/100))).risk_score = round3 (clip01 (42/100)) ∧
    (assemble "v1.0" dt0 obs0 (clip01 (42/100))).risk_level = get_risk_level (clip01 (42/100)) :=
  have h := (rounding_at_result_boundary.1 (modelConst (42/100)) "v1.0" dt0 none obs0
    (42/100) [] (assemble "v1.0" dt0 obs0 (clip01 (42/100))) none rfl rfl
    (predict_single_miss rfl rfl))
  ⟨h.1, h.2.1⟩

/-- C8: the serving path's temporal features (`month`, `hour`,
`day_of_year`) come from `datetime.now()` at prediction time — they equal
the evaluation instant's components and are independent of the request —
while the offline ETL transform reads them from the weather observation's
own recorded `timestamp`. -/
theorem temporal_feature_asymmetry :
    (∀ (request_data : Obs) (now : DT),
       (featureRow request_data now).month = now.month ∧
       (featureRow request_data now).hour = now.hour ∧
       (featureRow request_data now).day_of_year = now.yday) ∧
    (∀ (o o' : Obs) (now : DT),
       (featureRow o now).month = (featureRow o' now).month ∧
       (featureRow o now).hour = (featureRow o' now).hour ∧
       (featureRow o now).day_of_year = (featureRow o' now).day_of_year) ∧
    (∀ weather_data : WeatherData,
       (create_features weather_data).month = weather_data.timestamp.month ∧
       (create_features weather_data).hour = weather_data.timestamp.hour ∧
       (create_features weather_data).day_of_year = weather_data.timestamp.yday) :=
  ⟨fun _ _ => ⟨rfl, rfl, rfl⟩, fun _ _ _ => ⟨rfl, rfl, rfl⟩, fun _ => ⟨rfl, rfl, rfl⟩⟩

/-- C10: two validated requests that agree on everything except latitude
and longitude produce the same feature row, the same contributing
factors, and (on cache misses, same model and evaluation instant) the
same `risk_score`, `risk_level` and `contributing_factors`; the
coordinates are only echoed into the result. -/
theorem location_noninterference :
    ∀ (o o' : Obs),
      o.temperature = o'.temperature → o.humidity = o'.humidity →
      o.wind_speed = o'.wind_speed → o.wind_direction = o'.wind_direction →
      o.pressure = o'.pressure →
      (∀ now : DT, featureRow o now = featureRow o' now) ∧
      calculate_factors o = calculate_factors o' ∧
      (∀ (model : List FeatureRow → List ℚ) (version : String) (now : DT)
         (client : Option Backend) (p q : Prediction) (client₁ client₂ : Option Backend),
         CacheService.get client o.toFields = none →
         CacheService.get client o'.toFields = none →
         predict_single model version now client o = some (p, client₁) →
         predict_single model version now client o' = some (q, client₂) →
         p.risk_score = q.risk_score ∧ p.risk_level = q.risk_level ∧
         p.contributing_factors = q.contributing_factors ∧
         p.latitude = o.latitude ∧ p.longitude = o.longitude ∧
         q.latitude = o'.latitude ∧ q.longitude = o'.longitude) := by
  intro o o' ht hh hw hwd hp
  have hrow : ∀ now : DT, featureRow o now = featureRow o' now := by
    intro now
    unfold featureRow
    rw [ht, hh, hw, hwd, hp]
  have hfac : calculate_factors o = calculate_factors o' := by
    unfold calculate_factors
    rw [ht, hh, hw]
  refine ⟨hrow, hfac, ?_⟩
  intro model version now client p q client₁ client₂ hmiss hmiss' hpred hpred'
  have hprep : prepare_features o now = prepare_features o' now := by
    unfold prepare_features
    rw [hrow]
  rcases hcase : model (prepare_features o now) with _ | ⟨s, rest⟩
  · exact absurd (hpred.symm.trans (predict_single_miss_empty hmiss hcase)).symm
      (by simp)
  · have hcase' : model (prepare_features o' now) = s :: rest := by
      rw [← hprep, hcase]
    have heq := (predict_single_miss hmiss hcase).symm.trans hpred
    rw [Option.some.injEq, Prod.mk.injEq] at heq
    obtain ⟨hpe, -⟩ := heq
    have heq' := (predict_single_miss hmiss' hcase').symm.trans hpred'
    rw [Option.some.injEq, Prod.mk.injEq] at heq'
    obtain ⟨hqe, -⟩ := heq'
    subst hpe
    subst hqe
    exact ⟨rfl, rfl, by simpa [assemble] using hfac, rfl, rfl, rfl, rfl⟩

/-- Witness for C10: the sample requests `obs0` and `obs1` differ only in
location and get the same score, level and factors from a stub model. -/
theorem location_noninterference_witness :
    (assemble "v1.0" dt0 obs0 (clip01 (42/100))).risk_score =
      (assemble "v1.0" dt0 obs1 (clip01 (42/100))).risk_score ∧
    (assemble "v1.0" dt0 obs0 (clip01 (42/100))).risk_level =
      (assemble "v1.0" dt0 obs1 (clip01 (42/100))).risk_level ∧
    (assemble "v1.0" dt0 obs0 (clip01 (42/100))).contributing_factors =
      (assemble "v1.0" dt0 obs1 (clip01 (42/100))).contributing_factors :=
  have h := (location_noninterference obs0 obs1 rfl rfl rfl rfl rfl).2.2
    (modelConst (42/100)) "v1.0" dt0 none
    (assemble "v1.0" dt0 obs0 (clip01 (42/100)))
    (assemble "v1.0" dt0 obs1 (clip01 (42/100))) none none rfl rfl
    (predict_single_miss rfl rfl) (predict_single_miss rfl rfl)
  ⟨h.1, h.2.1, h.2.2.1⟩

/-- C7: backing-store failures are absorbed: with a raising backend,
`get` reports absent, `set` is a no-op leaving the backend unchanged, and
`get_stats` reports `{'connected': False}`; likewise when the client
connection was never established (`redis_client is None`).  All three
operations are total — no error propagates to the caller. -/
theorem cache_fail_open :
    ∀ (b : Backend) (request_data : List KV) (p : Prediction) (ttl : Option ℕ),
      (b.failing = true →
        CacheService.get (some b) request_data = none ∧
        CacheService.set (some b) request_data p ttl = some b ∧
        CacheService.get_stats (some b) = .disconnected) ∧
      (CacheService.get none request_data = none ∧
       CacheService.set none request_data p ttl = none ∧
       CacheService.get_stats none = .disconnected) := by
  intro b request_data p ttl
  refine ⟨fun hfail => ⟨?_, ?_, ?_⟩, rfl, rfl, rfl⟩
  · simp [CacheService.get, hfail]
  · simp [CacheService.set, hfail]
  · simp [CacheService.get_stats, hfail]

/-- Witness for C7 on a concrete raising backend. -/
theorem cache_fail_open_witness :
    CacheService.get (some backendDown) obs0.toFields = none ∧
    CacheService.set (some backendDown) obs0.toFields pred0 none = some backendDown ∧
    CacheService.get_stats (some backendDown) = .disconnected :=
  (cache_fail_open backendDown obs0.toFields pred0 none).1 rfl

/-- C3 counterexample: the claim says the cached payload is stored
without the `from_cache` flag and that `get` after `put` returns the
result with `from_cache` flipped to true.  On the code, `put(O, R)`
stores the full serialized result — including `"from_cache": false` —
and `CacheService.get` returns it verbatim: at the concrete input
`(obs0, pred0)` the read-back payload still has `from_cache = false`
(the flip to true happens later, in `predict_single`), and the stored
JSON object contains the `from_cache` key. -/
theorem cache_roundtrip_counterexample :
    CacheService.get (CacheService.set (some backend0) obs0.toFields pred0 none)
      obs0.toFields = some pred0 ∧
    pred0.from_cache = false ∧
    (CacheService.get (CacheService.set (some backend0) obs0.toFields pred0 none)
      obs0.toFields).map Prediction.from_cache ≠ some true ∧
    ("from_cache", PValue.bool false) ∈ pred0.toDict := by
  have hget : CacheService.get (CacheService.set (some backend0) obs0.toFields pred0 none)
      obs0.toFields = some pred0 := by
    simp [CacheService.set, CacheService.get, backend0, kvInsert, lookupKV]
  refine ⟨hget, rfl, ?_, ?_⟩
  · rw [hget]
    simp [pred0]
  · simp [Prediction.toDict, pred0]

/-- C3 amended: `put(O, R)` followed by `CacheService.get(O)` (healthy
backend, within the TTL) returns a payload equal to `R` in **every**
field, `from_cache` included; the stored serialized payload contains the
`from_cache` key (it is not stripped at write time); and the flip of
`from_cache` to true is performed by `predict_single` on a cache hit,
which overwrites the stored value in the returned copy. -/
theorem cache_roundtrip_amended :
    ∀ (b : Backend) (o : Obs) (R : Prediction),
      b.failing = false →
      CacheService.get (CacheService.set (some b) o.toFields R none) o.toFields = some R ∧
      ("from_cache", PValue.bool R.from_cache) ∈ R.toDict ∧
      (∀ (model : List FeatureRow → List ℚ) (version : String) (now : DT)
         (client : Option Backend),
         CacheService.get client o.toFields = some R →
         predict_single model version now client o =
           some ({ R with from_cache := true }, client)) := by
  intro b o R hok
  refine ⟨?_, ?_, fun model version now client hhit => predict_single_hit hhit⟩
  · simp [CacheService.set, CacheService.get, hok, kvInsert, lookupKV]
  · simp [Prediction.toDict]

/-- Witness for the amended C3 at concrete inputs. -/
theorem cache_roundtrip_amended_witness :
    CacheService.get (CacheService.set (some backend0) obs1.toFields pred0 none)
      obs1.toFields = some pred0 ∧
    ("from_cache", PValue.bool pred0.from_cache) ∈ pred0.toDict ∧
    predict_single (modelConst 0) "v1.0" dt0
      (CacheService.set (some backend0) obs1.toFields pred0 none) obs1 =
      some ({ pred0 with from_cache := true },
        CacheService.set (some backend0) obs1.toFields pred0 none) := by
  have h := cache_roundtrip_amended backend0 obs1 pred0 rfl
  exact ⟨h.1, h.2.1, h.2.2 (modelConst 0) "v1.0" dt0 _ h.1⟩

/-! Fingerprint lemmas: `_generate_key` sorts the request dict by key, so
the key is invariant under the construction order of the dict, and the
sorted key/value list determines the observation. -/

lemma generate_key_perm (l : List KV) : (generate_key l).Perm l :=
  List.perm_insertionSort keyLe l

lemma generate_key_sorted (l : List KV) : (generate_key l).Sorted keyLe :=
  List.sorted_insertionSort keyLe l

lemma FieldName.idx_inj : ∀ {f g : FieldName}, f.idx = g.idx → f = g := by
  intro f g
  cases f <;> cases g <;> simp [FieldName.idx]

lemma pairwise_keyLt_of_sorted_nodup {l : List KV} (hs : l.Sorted keyLe)
    (hn : (l.map Prod.fst).Nodup) : l.Pairwise keyLt := by
  have hne : l.Pairwise (fun a b : KV => a.1 ≠ b.1) := List.pairwise_map.mp hn
  exact (List.Pairwise.and hs hne).imp
    (fun h => lt_of_le_of_ne h.1 (fun hidx => h.2 (FieldName.idx_inj hidx)))

lemma toFields_keys_nodup (o : Obs) : (o.toFields.map Prod.fst).Nodup := by
  rcases o with ⟨la, lo, t, hu, ws, wd, pr⟩
  rcases wd <;> rcases pr <;> simp [Obs.toFields]

lemma generate_key_eq_of_perm {l : List KV} {o : Obs}
    (hperm : l.Perm o.toFields) : generate_key l = generate_key o.toFields := by
  have hp1 : (generate_key l).Perm o.toFields := (generate_key_perm l).trans hperm
  have hn1 : ((generate_key l).map Prod.fst).Nodup :=
    ((hp1.map Prod.fst).nodup_iff).mpr (toFields_keys_nodup o)
  have hn2 : ((generate_key o.toFields).map Prod.fst).Nodup :=
    (((generate_key_perm o.toFields).map Prod.fst).nodup_iff).mpr (toFields_keys_nodup o)
  exact List.eq_of_perm_of_sorted (hp1.trans (generate_key_perm o.toFields).symm)
    (pairwise_keyLt_of_sorted_nodup (generate_key_sorted l) hn1)
    (pairwise_keyLt_of_sorted_nodup (generate_key_sorted o.toFields) hn2)

lemma mem_toFields_iff (o : Obs) (kv : KV) :
    kv ∈ o.toFields ↔
      kv = (.latitude, o.latitude) ∨ kv = (.longitude, o.longitude) ∨
      kv = (.temperature, o.temperature) ∨ kv = (.humidity, o.humidity) ∨
      kv = (.wind_speed, o.wind_speed) ∨
      (∃ w, o.wind_direction = some w ∧ kv = (.wind_direction, w)) ∨
      (∃ p, o.pressure = some p ∧ kv = (.pressure, p)) := by
  rcases o with ⟨la, lo, t, hu, ws, wd, pr⟩
  rcases wd <;> rcases pr <;> simp [Obs.toFields]

lemma toFields_perm_inj {o o' : Obs} (hperm : o.toFields.Perm o'.toFields) :
    o = o' := by
  have hmem : ∀ kv : KV, kv ∈ o.toFields ↔ kv ∈ o'.toFields :=
    fun kv => hperm.mem_iff
  have hla : o.latitude = o'.latitude := by
    have hm := (mem_toFields_iff o' _).mp
      ((hmem _).mp ((mem_toFields_iff o _).mpr (Or.inl rfl)))
    rcases hm with h | h | h | h | h | ⟨w, hw, h⟩ | ⟨p, hp, h⟩ <;> simp_all
  have hlo : o.longitude = o'.longitude := by
    have hm := (mem_toFields_iff o' _).mp
      ((hmem _).mp ((mem_toFields_iff o _).mpr (Or.inr (Or.inl rfl))))
    rcases hm with h | h | h | h | h | ⟨w, hw, h⟩ | ⟨p, hp, h⟩ <;> simp_all
  have ht : o.temperature = o'.temperature := by
    have hm := (mem_toFields_iff o' _).mp
      ((hmem _).mp ((mem_toFields_iff o _).mpr (Or.inr (Or.inr (Or.inl rfl)))))
    rcases hm with h | h | h | h | h | ⟨w, hw, h⟩ | ⟨p, hp, h⟩ <;> simp_all
  have hhu : o.humidity = o'.humidity := by
    have hm := (mem_toFields_iff o' _).mp
      ((hmem _).mp ((mem_toFields_iff o _).mpr (Or.inr (Or.inr (Or.inr (Or.inl rfl))))))
    rcases hm with h | h | h | h | h | ⟨w, hw, h⟩ | ⟨p, hp, h⟩ <;> simp_all
  have hws : o.wind_speed = o'.wind_speed := by
    have hm := (mem_toFields_iff o' _).mp
      ((hmem _).mp ((mem_toFields_iff o _).mpr
        (Or.inr (Or.inr (Or.inr (Or.inr (Or.inl rfl)))))))
    rcases hm with h | h | h | h | h | ⟨w, hw, h⟩ | ⟨p, hp, h⟩ <;> simp_all
  have hwd : o.wind_direction = o'.wind_direction := by
    cases hcase : o.wind_direction with
    | some w =>
      have hm := (mem_toFields_iff o' _).mp
        ((hmem _).mp ((mem_toFields_iff o _).mpr
          (Or.inr (Or.inr (Or.inr (Or.inr (Or.inr (Or.inl ⟨w, hcase, rfl⟩))))))))
      rcases hm with h | h | h | h | h | ⟨w', hw', h⟩ | ⟨p, hp, h⟩ <;> simp_all
    | none =>
      cases hcase' : o'.wind_direction with
      | none => rfl
      | some w' =>
        have hm := (mem_toFields_iff o _).mp
          ((hmem _).mpr ((mem_toFields_iff o' _).mpr
            (Or.inr (Or.inr (Or.inr (Or.inr (Or.inr (Or.inl ⟨w', hcase', rfl⟩))))))))
        rcases hm with h | h | h | h | h | ⟨w, hw, h⟩ | ⟨p, hp, h⟩ <;> simp_all
  have hpr : o.pressure = o'.pressure := by
    cases hcase : o.pressure with
    | some p =>
      have hm := (mem_toFields_iff o' _).mp
        ((hmem _).mp ((mem_toFields_iff o _).mpr
          (Or.inr (Or.inr (Or.inr (Or.inr (Or.inr (Or.inr ⟨p, hcase, rfl⟩))))))))
      rcases hm with h | h | h | h | h | ⟨w, hw, h⟩ | ⟨p', hp', h⟩ <;> simp_all
    | none =>
      cases hcase' : o'.pressure with
      | none => rfl
      | some p' =>
        have hm := (mem_toFields_iff o _).mp
          ((hmem _).mpr ((mem_toFields_iff o' _).mpr
            (Or.inr (Or.inr (Or.inr (Or.inr (Or.inr (Or.inr ⟨p', hcase', rfl⟩))))))))
        rcases hm with h | h | h | h | h | ⟨w, hw, h⟩ | ⟨p, hp, h⟩ <;> simp_all
  rcases o with ⟨la, lo, t, hu, ws, wd, pr⟩
  rcases o' with ⟨la', lo', t', hu', ws', wd', pr'⟩
  simp_all

lemma toFields_inj {o o' : Obs}
    (h : generate_key o.toFields = generate_key o'.toFields) : o = o' := by
  have h1 := generate_key_perm o.toFields
  have h2 := generate_key_perm o'.toFields
  rw [h] at h1
  exact toFields_perm_inj (h1.symm.trans h2)

/-- C4: the cache key of an observation is invariant under the order in
which the request's fields were supplied (any permutation of the field
mapping yields the same key), and two observations differing in at least
one field value get different keys. -/
theorem fingerprint_stability :
    (∀ (o : Obs) (l : List KV), l.Perm o.toFields →
       generate_key l = generate_key o.toFields) ∧
    (∀ o o' : Obs, o ≠ o' →
       generate_key o.toFields ≠ generate_key o'.toFields) :=
  ⟨fun _ _ h => generate_key_eq_of_perm h,
   fun _ _ hne hk => hne (toFields_inj hk)⟩

/-- Witness for C4: a reordered copy of `obs0`'s field mapping keys
identically, and `obs0` and `obs2` (different temperature) key apart. -/
theorem fingerprint_stability_witness :
    generate_key [(FieldName.pressure, 1013), (FieldName.wind_speed, 20),
      (FieldName.latitude, 34), (FieldName.longitude, -118),
      (FieldName.wind_direction, 180), (FieldName.humidity, 25),
      (FieldName.temperature, 95)] = generate_key obs0.toFields ∧
    generate_key obs0.toFields ≠ generate_key obs2.toFields :=
  ⟨fingerprint_stability.1 obs0 _ (by decide),
   fingerprint_stability.2 obs0 obs2 (by decide)⟩

/-! Lemmas about the two loops of `predict_batch`: the partition loop's
output is determined by the cache alone, and filling the placeholders at
the recorded original indices reconstructs the per-position result
description `batchResultSpec`. -/

lemma partitionPhase_succ (client : Option Backend) (l : List Obs) (i : ℕ) :
    partitionPhase client l (i + 1) =
      ⟨(partitionPhase client l i).preds, (partitionPhase client l i).uncached,
       (partitionPhase client l i).idxs.map (· + 1)⟩ := by
  induction l generalizing i with
  | nil => rfl
  | cons r rs ih =>
    simp only [partitionPhase]
    rw [ih (i + 1), ih i]
    cases hget : CacheService.get client r.toFields <;> simp

lemma partitionPhase_preds (client : Option Backend) (l : List Obs) (i : ℕ) :
    (partitionPhase client l i).preds =
      l.map (fun r => (CacheService.get client r.toFields).map
        (fun c => { c with from_cache := true })) := by
  induction l generalizing i with
  | nil => rfl
  | cons r rs ih =>
    simp only [partitionPhase]
    cases hget : CacheService.get client r.toFields <;> simp [ih (i + 1), hget]

lemma partitionPhase_uncached (client : Option Backend) (l : List Obs) (i : ℕ) :
    (partitionPhase client l i).uncached =
      l.filter (fun r => (CacheService.get client r.toFields).isNone) := by
  induction l generalizing i with
  | nil => rfl
  | cons r rs ih =>
    simp only [partitionPhase]
    cases hget : CacheService.get client r.toFields <;>
      simp [ih (i + 1), hget, List.filter_cons]

lemma fillLoop_shift (version : String) (now : DT) (pairs : List (Obs × ℚ))
    (idxs : List ℕ) (x : Option Prediction) (preds : List (Option Prediction))
    (client : Option Backend) :
    fillLoop version now pairs (idxs.map (· + 1)) (x :: preds) client =
      ((x :: (fillLoop version now pairs idxs preds client).1),
       (fillLoop version now pairs idxs preds client).2) := by
  induction pairs generalizing idxs preds client with
  | nil => simp [fillLoop]
  | cons pr rest ih =>
    cases idxs with
    | nil => simp [fillLoop]
    | cons idx idxs' =>
      obtain ⟨req, score⟩ := pr
      simp only [List.map_cons, fillLoop, List.set_cons_succ]
      exact ih idxs' _ _

lemma batchResultSpec_nil_scores (client : Option Backend) (version : String)
    (now : DT) (l : List Obs) :
    batchResultSpec client version now l [] =
      l.map (fun r => (CacheService.get client r.toFields).map
        (fun c => { c with from_cache := true })) := by
  induction l with
  | nil => rfl
  | cons r rs ih =>
    cases hget : CacheService.get client r.toFields <;>
      simp [batchResultSpec, hget, ih]

lemma batchResultSpec_no_miss (client : Option Backend) (version : String)
    (now : DT) (l : List Obs)
    (h : ∀ r ∈ l, (CacheService.get client r.toFields).isNone = false) :
    ∀ scores, batchResultSpec client version now l scores =
      l.map (fun r => (CacheService.get client r.toFields).map
        (fun c => { c with from_cache := true })) := by
  induction l with
  | nil => intro scores; rfl
  | cons r rs ih =>
    intro scores
    have hr := h r (List.mem_cons_self r rs)
    cases hget : CacheService.get client r.toFields with
    | none => rw [hget] at hr; simp at hr
    | some cached =>
      simp only [batchResultSpec, hget, List.map_cons, Option.map_some']
      rw [ih (fun x hx => h x (List.mem_cons_of_mem r hx)) scores]

lemma fillLoop_partition_eq_spec (client : Option Backend) (version : String)
    (now : DT) (l : List Obs) :
    ∀ (scores : List ℚ) (c : Option Backend),
      (fillLoop version now ((partitionPhase client l 0).uncached.zip scores)
        (partitionPhase client l 0).idxs (partitionPhase client l 0).preds c).1 =
      batchResultSpec client version now l scores := by
  induction l with
  | nil => intro scores c; rfl
  | cons r rs ih =>
    intro scores c
    cases hget : CacheService.get client r.toFields with
    | some cached =>
      have hpart : partitionPhase client (r :: rs) 0 =
          ⟨some { cached with from_cache := true } :: (partitionPhase client rs 0).preds,
           (partitionPhase client rs 0).uncached,
           (partitionPhase client rs 0).idxs.map (· + 1)⟩ := by
        simp only [partitionPhase]
        rw [partitionPhase_succ, hget]
      rw [hpart]
      dsimp only
      rw [fillLoop_shift]
      dsimp only
      rw [ih scores c]
      simp only [batchResultSpec, hget]
    | none =>
      have hpart : partitionPhase client (r :: rs) 0 =
          ⟨none :: (partitionPhase client rs 0).preds,
           r :: (partitionPhase client rs 0).uncached,
           0 :: (partitionPhase client rs 0).idxs.map (· + 1)⟩ := by
        simp only [partitionPhase]
        rw [partitionPhase_succ, hget]
      rw [hpart]
      dsimp only
      cases scores with
      | nil =>
        show (fillLoop version now [] _ _ c).1 = _
        simp only [fillLoop]
        rw [partitionPhase_preds, batchResultSpec_nil_scores, List.map_cons, hget]
        rfl
      | cons s rest =>
        show (fillLoop version now ((r, s) :: (partitionPhase client rs 0).uncached.zip rest)
          (0 :: (partitionPhase client rs 0).idxs.map (· + 1))
          (none :: (partitionPhase client rs 0).preds) c).1 = _
        simp only [fillLoop, List.set_cons_zero]
        rw [fillLoop_shift]
        dsimp only
        rw [ih rest _]
        simp only [batchResultSpec, hget]

lemma batchResultSpec_length (client : Option Backend) (version : String)
    (now : DT) : ∀ (l : List Obs) (scores : List ℚ),
    (batchResultSpec client version now l scores).length = l.length := by
  intro l
  induction l with
  | nil => intro scores; rfl
  | cons r rs ih =>
    intro scores
    cases hget : CacheService.get client r.toFields with
    | some cached => simp [batchResultSpec, hget, ih]
    | none =>
      cases scores with
      | nil => simp [batchResultSpec, hget, ih]
      | cons s rest => simp [batchResultSpec, hget, ih]

lemma batchResultSpec_isSome (client : Option Backend) (version : String)
    (now : DT) : ∀ (l : List Obs) (scores : List ℚ),
    (l.filter (fun r => (CacheService.get client r.toFields).isNone)).length ≤ scores.length →
    ∀ x ∈ batchResultSpec client version now l scores, x.isSome := by
  intro l
  induction l with
  | nil => intro scores _ x hx; simp [batchResultSpec] at hx
  | cons r rs ih =>
    intro scores hlen x hx
    cases hget : CacheService.get client r.toFields with
    | some cached =>
      rw [List.filter_cons_of_neg (by simp [hget])] at hlen
      simp only [batchResultSpec, hget, List.mem_cons] at hx
      rcases hx with rfl | hx
      · rfl
      · exact ih scores hlen x hx
    | none =>
      rw [List.filter_cons_of_pos (by simp [hget])] at hlen
      cases scores with
      | nil => simp at hlen
      | cons s rest =>
        simp only [List.length_cons, Nat.add_le_add_iff_right] at hlen
        simp only [batchResultSpec, hget, List.mem_cons] at hx
        rcases hx with rfl | hx
        · rfl
        · exact ih rest hlen x hx

lemma predict_batch_intended_preds (model : List FeatureRow → List ℚ)
    (version : String) (now : DT) (client : Option Backend) (requests : List Obs) :
    (predict_batch_intended model version now client requests).1 =
      batchResultSpec client version now requests
        (model ((requests.filter (fun r => (CacheService.get client r.toFields).isNone)).map
          (fun r => featureRow r now))) := by
  unfold predict_batch_intended
  by_cases h : (partitionPhase client requests 0).uncached.isEmpty
  · simp only [h, if_true]
    have hfil : requests.filter (fun r => (CacheService.get client r.toFields).isNone) = [] := by
      rw [← partitionPhase_uncached client requests 0]
      exact List.isEmpty_iff.mp h
    have hmem : ∀ r ∈ requests, (CacheService.get client r.toFields).isNone = false := by
      intro r hr
      by_contra hne
      have : r ∈ requests.filter (fun r => (CacheService.get client r.toFields).isNone) :=
        List.mem_filter.mpr ⟨hr, by simpa using hne⟩
      rw [hfil] at this
      simp at this
    rw [partitionPhase_preds, batchResultSpec_no_miss client version now requests hmem]
  · simp only [h, Bool.false_eq_true, if_false]
    rw [fillLoop_partition_eq_spec, partitionPhase_uncached]

lemma predict_batch_raises (model : List FeatureRow → List ℚ) (version : String)
    (now : DT) (client : Option Backend) (requests : List Obs)
    (hmiss : ∃ r ∈ requests, CacheService.get client r.toFields = none) :
    predict_batch model version now client requests = .error "Must pass 2-d input" := by
  unfold predict_batch
  have hne : (partitionPhase client requests 0).uncached ≠ [] := by
    rw [partitionPhase_uncached]
    obtain ⟨r, hr, hget⟩ := hmiss
    intro hnil
    have : r ∈ requests.filter (fun r => (CacheService.get client r.toFields).isNone) :=
      List.mem_filter.mpr ⟨hr, by simp [hget]⟩
    rw [hnil] at this
    simp at this
  have hempty : (partitionPhase client requests 0).uncached.isEmpty = false := by
    cases hcase : (partitionPhase client requests 0).uncached with
    | nil => exact absurd hcase hne
    | cons a as => rfl
  simp only [hempty, if_false]
  cases hcase : (partitionPhase client requests 0).uncached with
  | nil => exact absurd hcase hne
  | cons a as => simp [pdDataFrameOfFrames]

lemma predict_batch_all_hits (model : List FeatureRow → List ℚ) (version : String)
    (now : DT) (client : Option Backend) (requests : List Obs)
    (hhit : ∀ r ∈ requests, (CacheService.get client r.toFields).isNone = false) :
    predict_batch model version now client requests =
      .ok (requests.map (fun r => (CacheService.get client r.toFields).map
        (fun c => { c with from_cache := true })), client, []) := by
  unfold predict_batch
  have hnil : (partitionPhase client requests 0).uncached = [] := by
    rw [partitionPhase_uncached]
    refine List.filter_eq_nil_iff.mpr ?_
    intro r hr
    simp [hhit r hr]
  simp only [hnil, List.isEmpty_nil, if_true]
  rw [partitionPhase_preds]

lemma predict_batch_intended_log_miss (model : List FeatureRow → List ℚ)
    (version : String) (now : DT) (client : Option Backend) (requests : List Obs)
    (hmiss : ∃ r ∈ requests, CacheService.get client r.toFields = none) :
    (predict_batch_intended model version now client requests).2.2 =
      [(requests.filter (fun r => (CacheService.get client r.toFields).isNone)).map
        (fun r => featureRow r now)] := by
  unfold predict_batch_intended
  have hne : (partitionPhase client requests 0).uncached ≠ [] := by
    rw [partitionPhase_uncached]
    obtain ⟨r, hr, hget⟩ := hmiss
    intro hnil
    have : r ∈ requests.filter (fun r => (CacheService.get client r.toFields).isNone) :=
      List.mem_filter.mpr ⟨hr, by simp [hget]⟩
    rw [hnil] at this
    simp at this
  have hempty : (partitionPhase client requests 0).uncached.isEmpty = false := by
    cases hcase : (partitionPhase client requests 0).uncached with
    | nil => exact absurd hcase hne
    | cons a as => rfl
  simp only [hempty, Bool.false_eq_true, if_false]
  rw [partitionPhase_uncached]

lemma predict_batch_intended_log_hits (model : List FeatureRow → List ℚ)
    (version : String) (now : DT) (client : Option Backend) (requests : List Obs)
    (hhit : ∀ r ∈ requests, (CacheService.get client r.toFields).isNone = false) :
    (predict_batch_intended model version now client requests).2.2 = [] := by
  unfold predict_batch_intended
  have hnil : (partitionPhase client requests 0).uncached = [] := by
    rw [partitionPhase_uncached]
    refine List.filter_eq_nil_iff.mpr ?_
    intro r hr
    simp [hhit r hr]
  simp only [hnil, List.isEmpty_nil, if_true]

/-- C2, settled against the code and against the spec-level intent.  On the
code as written: `predict_batch` raises pandas'
`ValueError: Must pass 2-d input` (never reaching the model) whenever at
least one request is a cache miss, because `_prepare_features` returns a
one-row DataFrame and `predict_batch` nests those frames in another
`pd.DataFrame`; with all inputs cache hits it does return the hits in
order with zero model invocations.  With that one slip repaired
(`predict_batch_intended`, the flow the docstrings and spec describe), the
output is length- and order-preserving with `output[i]` corresponding to
`input[i]` (`batchResultSpec`), every slot is filled when the model is
length-preserving, and the model is invoked exactly once, on the feature
rows of the whole miss-set, when at least one miss exists, and zero times
when all inputs are hits. -/
theorem batch_order_preservation :
    ∀ (model : List FeatureRow → List ℚ) (version : String) (now : DT)
      (client : Option Backend) (requests : List Obs),
      (∀ frame, (model frame).length = frame.length) →
      ((∃ r ∈ requests, CacheService.get client r.toFields = none) →
        predict_batch model version now client requests = .error "Must pass 2-d input") ∧
      ((∀ r ∈ requests, (CacheService.get client r.toFields).isNone = false) →
        predict_batch model version now client requests =
          .ok (requests.map (fun r => (CacheService.get client r.toFields).map
            (fun c => { c with from_cache := true })), client, [])) ∧
      ((predict_batch_intended model version now client requests).1 =
         batchResultSpec client version now requests
           (model ((requests.filter (fun r => (CacheService.get client r.toFields).isNone)).map
             (fun r => featureRow r now))) ∧
       (predict_batch_intended model version now client requests).1.length = requests.length ∧
       (∀ x ∈ (predict_batch_intended model version now client requests).1, x.isSome) ∧
       ((∃ r ∈ requests, CacheService.get client r.toFields = none) →
         (predict_batch_intended model version now client requests).2.2 =
           [(requests.filter (fun r => (CacheService.get client r.toFields).isNone)).map
             (fun r => featureRow r now)]) ∧
       ((∀ r ∈ requests, (CacheService.get client r.toFields).isNone = false) →
         (predict_batch_intended model version now client requests).2.2 = [])) := by
  intro model version now client requests hmodel
  refine ⟨predict_batch_raises model version now client requests,
    predict_batch_all_hits model version now client requests,
    predict_batch_intended_preds model version now client requests, ?_, ?_,
    predict_batch_intended_log_miss model version now client requests,
    predict_batch_intended_log_hits model version now client requests⟩
  · rw [predict_batch_intended_preds]
    exact batchResultSpec_length client version now requests _
  · rw [predict_batch_intended_preds]
    refine batchResultSpec_isSome client version now requests _ ?_
    rw [hmodel, List.length_map]

/-- Witness for C2: a singleton batch whose sole request is a miss makes
the code raise, while the intended flow keeps the length. -/
theorem batch_order_preservation_witness :
    predict_batch (modelConst (9/10)) "v1.0" dt0 none [obs1] = .error "Must pass 2-d input" ∧
    (predict_batch_intended (modelConst (9/10)) "v1.0" dt0 none [obs1]).1.length = [obs1].length :=
  have h := batch_order_preservation (modelConst (9/10)) "v1.0" dt0 none [obs1]
    (fun frame => List.length_map frame _)
  ⟨h.1 ⟨obs1, by simp, rfl⟩, h.2.2.2.1⟩

/-- C1, settled against the code and against the spec-level intent.  On
the code as written the parity property fails: for an uncached
observation, `predict_single(O)` returns a prediction but
`predict_batch([O])` raises pandas' `ValueError: Must pass 2-d input`
(the nested one-row-DataFrame slip), so `predict_batch([O])[0]` never
exists.  On the repaired batch flow (`predict_batch_intended`), the sole
batch result agrees with `predict_single(O)` on `risk_score`,
`risk_level` and `contributing_factors`, as the claim states. -/
theorem batch_single_parity :
    ∀ (model : List FeatureRow → List ℚ) (version : String) (now : DT)
      (client : Option Backend) (o : Obs),
      (∀ frame, (model frame).length = frame.length) →
      CacheService.get client o.toFields = none →
      predict_batch model version now client [o] = .error "Must pass 2-d input" ∧
      ∃ p q client',
        predict_single model version now client o = some (p, client') ∧
        (predict_batch_intended model version now client [o]).1 = [some q] ∧
        q.risk_score = p.risk_score ∧ q.risk_level = p.risk_level ∧
        q.contributing_factors = p.contributing_factors := by
  intro model version now client o hmodel hmiss
  refine ⟨predict_batch_raises model version now client [o] ⟨o, by simp, hmiss⟩, ?_⟩
  have hlen : (model (prepare_features o now)).length = 1 := by
    rw [hmodel]
    rfl
  obtain ⟨s, rest, hm⟩ : ∃ s rest, model (prepare_features o now) = s :: rest := by
    cases hcase : model (prepare_features o now) with
    | nil => rw [hcase] at hlen; simp at hlen
    | cons a as => exact ⟨a, as, rfl⟩
  refine ⟨assemble version now o (clip01 s), assemble version now o (clip01 s), _,
    predict_single_miss hmiss hm, ?_, rfl, rfl, rfl⟩
  rw [predict_batch_intended_preds]
  have hfil : [o].filter (fun r => (CacheService.get client r.toFields).isNone) = [o] := by
    simp [List.filter, hmiss]
  rw [hfil]
  have hmap : [o].map (fun r => featureRow r now) = prepare_features o now := rfl
  rw [hmap, hm]
  simp [batchResultSpec, hmiss]

/-- Witness for C1: concrete miss on which the code's batch path raises
while the single path succeeds. -/
theorem batch_single_parity_witness :
    predict_batch (modelConst (1/2)) "v1.0" dt0 none [obs0] = .error "Must pass 2-d input" ∧
    predict_single (modelConst (1/2)) "v1.0" dt0 none obs0 =
      some (assemble "v1.0" dt0 obs0 (clip01 (1/2)), none) :=
  have h := batch_single_parity (modelConst (1/2)) "v1.0" dt0 none obs0
    (fun frame => List.length_map frame _) rfl
  ⟨h.1, predict_single_miss rfl rfl⟩
